import Mathlib

/-!
Verification of the generic Newton iterator.

The source is a single Rust file defining a struct `Newton<T, F, DF>` with
fields `current : T`, `func : F` and `derivative : DF`, a constructor
`Newton::new(initial_guess, func, derivative)`, and an `Iterator`
implementation whose `next` computes
`next = current - (func(current) / deriv(current))`, stores it back into
`current`, and returns `Some(next)`.

We embed the struct as a Lean structure over an arbitrary type `T` carrying
`Div` and `Sub` instances (the trait bounds `Div<Output = T>` and
`Sub<Output = T>`; `Copy` is value semantics, which Lean values have by
construction).  The mutating `next` becomes a pure function returning the
produced `Option T` together with the updated state.  Rust iterator
combinators used by the tests (`nth`) are embedded following their standard
library default implementations specialised to this iterator.
-/

universe u

/-- The `Newton` struct from the source: the current approximation and the
two user-supplied callables. -/
structure Newton (T : Type u) [Div T] [Sub T] where
  current : T
  func : T → T
  derivative : T → T

variable {T : Type u} [Div T] [Sub T]

/-- `Newton::new(initial_guess, func, derivative)`. -/
def Newton.new (initial_guess : T) (func : T → T) (derivative : T → T) :
    Newton T :=
  { current := initial_guess, func := func, derivative := derivative }

/-- `Iterator::next` for `Newton`: computes
`next = current - (func(current) / deriv(current))`, writes it to `current`
and returns `Some(next)`.  State passing replaces `&mut self`: the result is
the produced value paired with the post-call state. -/
def Newton.next (it : Newton T) : Option T × Newton T :=
  let next := it.current - (it.func it.current / it.derivative it.current)
  (some next, { it with current := next })

/-- The state after one `next` call (the produced value discarded). -/
def Newton.step (it : Newton T) : Newton T :=
  it.next.2

/-- The state after `k` successive `next` calls. -/
def Newton.stepN (it : Newton T) : Nat → Newton T
  | 0 => it
  | k + 1 => it.step.stepN k

/-- Rust's default `Iterator::nth(k)`: advance `k + 1` times by `next`,
return the last produced value, propagating exhaustion if `next` ever
returns `None`. -/
def Newton.nth (it : Newton T) : Nat → Option T
  | 0 => it.next.1
  | k + 1 =>
    match it.next with
    | (none, _) => none
    | (some _, it2) => it2.nth k

/-- The list of the first `k` values produced by successive `next` calls. -/
def Newton.pulled : Newton T → Nat → List (Option T)
  | _, 0 => []
  | it, k + 1 => it.next.1 :: Newton.pulled it.next.2 k

/-- The Newton update rule of the spec: `x ↦ x − func(x) / derivative(x)`. -/
def newtonUpdate (func derivative : T → T) (x : T) : T :=
  x - func x / derivative x

/- Helper lemmas about the embedding. -/

theorem Newton.step_current (it : Newton T) :
    it.step.current = newtonUpdate it.func it.derivative it.current := rfl

theorem Newton.step_func (it : Newton T) : it.step.func = it.func := rfl

theorem Newton.step_derivative (it : Newton T) :
    it.step.derivative = it.derivative := rfl

theorem Newton.stepN_func (it : Newton T) (k : Nat) :
    (it.stepN k).func = it.func := by
  induction k generalizing it with
  | zero => rfl
  | succ k ih => exact ih it.step

theorem Newton.stepN_derivative (it : Newton T) (k : Nat) :
    (it.stepN k).derivative = it.derivative := by
  induction k generalizing it with
  | zero => rfl
  | succ k ih => exact ih it.step

theorem Newton.stepN_current (it : Newton T) (k : Nat) :
    (it.stepN k).current =
      (newtonUpdate it.func it.derivative)^[k] it.current := by
  induction k generalizing it with
  | zero => rfl
  | succ k ih =>
    rw [Function.iterate_succ_apply]
    exact ih it.step

theorem Newton.nth_eq (it : Newton T) (k : Nat) :
    it.nth k = some ((newtonUpdate it.func it.derivative)^[k + 1] it.current) := by
  induction k generalizing it with
  | zero => rfl
  | succ k ih =>
    show it.step.nth k = _
    rw [ih it.step, Function.iterate_succ_apply]
    rfl

/- Claim theorems. -/

/-- C1: one `next` call computes
`next = current - func(current) / derivative(current)` with `T`'s
subtraction and division, stores that value into `current`, and returns it
(wrapped in `some`). -/
theorem newton_next_computes_update (it : Newton T) :
    it.next.1 = some (it.current - it.func it.current / it.derivative it.current) ∧
    it.next.2.current = it.current - it.func it.current / it.derivative it.current ∧
    it.next.1 = some it.next.2.current :=
  ⟨rfl, rfl, rfl⟩

/-- C2: for every initial guess, pair of callables and `N ≥ 1`, the `N`th
value produced from a fresh instance (obtained by `nth (N - 1)`, i.e. the
value returned by the `N`th `next` call) is the result of applying the
Newton update rule exactly `N` times to the initial guess — the
value-after-update convention. -/
theorem newton_nth_value_iterates_update (g : T) (f df : T → T) (N : Nat)
    (hN : 1 ≤ N) :
    (Newton.new g f df).nth (N - 1) = some ((newtonUpdate f df)^[N] g) := by
  have h := Newton.nth_eq (Newton.new g f df) (N - 1)
  rwa [Nat.sub_add_cancel hN] at h

theorem newton_nth_value_iterates_update_witness :
    (Newton.new (0 : Int) (fun x => x - 1) (fun _ => 1)).nth (6 - 1) =
      some ((newtonUpdate (fun x => x - 1) (fun _ => 1))^[6] 0) :=
  newton_nth_value_iterates_update 0 (fun x => x - 1) (fun _ => 1) 6 (by decide)

/-- C3: `next` never signals exhaustion: from every reachable state (any
number `k` of prior steps from any state, including degenerate values of
`current`) the produced value is `some`, never `none`; likewise every
`nth` pull yields a value. -/
theorem newton_next_never_exhausts (it : Newton T) (k j : Nat) :
    ((it.stepN k).next.1).isSome = true ∧ ((it.nth j).isSome = true) := by
  refine ⟨rfl, ?_⟩
  rw [Newton.nth_eq]
  rfl

/-- C4: the implementation uses the value-after-update convention: the
first value produced by a fresh instance is
`initial_guess - func(initial_guess) / derivative(initial_guess)`, and
every `next` call returns exactly the value stored in `current` right
after that call. -/
theorem newton_first_value_after_update (g : T) (f df : T → T)
    (it : Newton T) :
    (Newton.new g f df).next.1 = some (g - f g / df g) ∧
    it.next.1 = some it.next.2.current :=
  ⟨rfl, rfl⟩

/-- C5: the constructor is total (a plain function, no error outcome) and
returns exactly the record whose `current` is the initial guess and whose
`func` and `derivative` fields store the two callables unevaluated: the
constructed state does not depend on any value of `f` or `df`. -/
theorem newton_new_state (g : T) (f df : T → T) :
    Newton.new g f df =
      { current := g, func := f, derivative := df } ∧
    (∀ f2 df2 : T → T, (Newton.new g f2 df2).current = g) :=
  ⟨rfl, fun _ _ => rfl⟩

/-- C6: a `next` call changes only `current`: the `func` and `derivative`
fields are unchanged by one call, hence by any number `k` of calls — the
two callables are the same for the whole lifetime of the instance. -/
theorem newton_step_preserves_callables (it : Newton T) (k : Nat) :
    it.next.2.func = it.func ∧ it.next.2.derivative = it.derivative ∧
    (it.stepN k).func = it.func ∧ (it.stepN k).derivative = it.derivative :=
  ⟨rfl, rfl, it.stepN_func k, it.stepN_derivative k⟩

/-- C7: the trajectory is deterministic: two instances with the same
`current`, `func` and `derivative` (in particular, a second fresh instance
built with the same initial guess and callables) produce the same sequence
of `N` values, for every `N`. -/
theorem newton_trajectory_deterministic (a b : Newton T) (N : Nat)
    (hc : a.current = b.current) (hf : a.func = b.func)
    (hd : a.derivative = b.derivative) :
    Newton.pulled a N = Newton.pulled b N := by
  cases a
  cases b
  cases hc
  cases hf
  cases hd
  rfl

theorem newton_trajectory_deterministic_witness :
    Newton.pulled
        ((Newton.new (0 : Int) (fun x => x - 1) (fun _ => 1)).step) 3 =
      Newton.pulled (Newton.new (1 : Int) (fun x => x - 1) (fun _ => 1)) 3 :=
  newton_trajectory_deterministic _ _ 3 rfl rfl rfl

/-- C8: for `f(x) = x - c` with derivative constantly `1`, over any `T`
whose division by one and subtraction cancellation behave arithmetically
(`x / 1 = x` and `x - (x - y) = y`), every value produced from the first
step on equals `c` exactly; and in the literal instance of the test —
`T = Int`, function `x ↦ x - 1`, derivative `_ ↦ 1`, initial guess `0` —
the 6th produced value, `nth 5`, equals `1`. -/
theorem newton_exact_fixed_point [One T] (c g : T)
    (h1 : ∀ x : T, x / 1 = x) (h2 : ∀ x y : T, x - (x - y) = y)
    (N : Nat) (hN : 1 ≤ N) :
    (Newton.new g (fun x => x - c) (fun _ => (1 : T))).nth (N - 1) = some c ∧
    (Newton.new (0 : Int) (fun x => x - 1) (fun _ => 1)).nth 5 = some 1 := by
  have hupd : ∀ x : T, newtonUpdate (fun x => x - c) (fun _ => (1 : T)) x = c := by
    intro x
    show x - (x - c) / 1 = c
    rw [h1, h2]
  obtain ⟨m, rfl⟩ : ∃ m, N = m + 1 := ⟨N - 1, (Nat.succ_pred_eq_of_pos hN).symm⟩
  constructor
  · have h := Newton.nth_eq (Newton.new g (fun x => x - c) (fun _ => (1 : T))) m
    rw [Nat.add_sub_cancel, h]
    refine congrArg some ?_
    rw [Function.iterate_succ_apply']
    exact hupd _
  · decide

theorem newton_exact_fixed_point_witness :
    (Newton.new (0 : Int) (fun x => x - 1) (fun _ => 1)).nth (6 - 1) =
        some 1 ∧
    (Newton.new (0 : Int) (fun x => x - 1) (fun _ => 1)).nth 5 = some 1 :=
  newton_exact_fixed_point 1 0 (fun x => Int.ediv_one x)
    (fun x y => sub_sub_cancel x y) 6 (by decide)

/-- C9: the step performs no validation and no special case for a
zero-equivalent derivative: when `derivative(current) = 0`, `next` still
stores `current - func(current) / 0` — whatever `T`'s own division
returns there — into `current` and returns it wrapped in `some` like any
other value, and the following step applies the update rule to that
degenerate value. -/
theorem newton_step_no_zero_special_case [Zero T] (it : Newton T)
    (hz : it.derivative it.current = 0) :
    it.next.1 = some (it.current - it.func it.current / (0 : T)) ∧
    it.next.2.current = it.current - it.func it.current / (0 : T) ∧
    (it.next.1).isSome = true ∧
    it.next.2.next.1 =
      some (newtonUpdate it.func it.derivative it.next.2.current) := by
  rw [← hz]
  exact ⟨rfl, rfl, rfl, rfl⟩

theorem newton_step_no_zero_special_case_witness :
    (Newton.new (5 : Int) (fun x => x) (fun _ => 0)).next.1 =
        some (5 - 5 / (0 : Int)) ∧
    (Newton.new (5 : Int) (fun x => x) (fun _ => 0)).next.2.current =
        5 - 5 / (0 : Int) ∧
    ((Newton.new (5 : Int) (fun x => x) (fun _ => 0)).next.1).isSome = true ∧
    (Newton.new (5 : Int) (fun x => x) (fun _ => 0)).next.2.next.1 =
      some (newtonUpdate (fun x => x) (fun _ => (0 : Int))
        (Newton.new (5 : Int) (fun x => x) (fun _ => 0)).next.2.current) :=
  newton_step_no_zero_special_case (Newton.new (5 : Int) (fun x => x) (fun _ => 0)) rfl
